import Mathlib

/-!
Verification development for the `github-api` helper module (src/index.js).

The module is a thin glue layer: it authenticates against the GitHub API
(reading a `.netrc` style credential file, validating the token, falling back
to an interactive prompt), resolves a local git checkout's upstream remote
into an `owner/repo` identity, and fires a single `repository_dispatch` call.

Shallow embedding conventions:
- JS strings are `List Char` (called `Str` below); `"lit".data` injects a
  Lean string literal.
- Effectful collaborators (git subprocesses, the remote API, the interactive
  prompt, the credential file) are explicit parameters: oracles for remote
  call outcomes, a scripted list of interactive answers, and the loaded
  credential mapping.  Side effects (file saves, dispatch calls, prompt
  consumption) are returned as explicit traces.
- `process.exit(1)` is a distinguished terminal outcome constructor, not an
  error value.
- Console output (chalk writes) is not modelled; it carries no data the
  claims depend on, except the warning text of `checkCredentials`, which is
  returned explicitly.
-/

/-- JS strings, modelled as lists of characters. -/
abbrev Str := List Char

/-! ## The remote-URL regex

`src/index.js` line 202 matches the remote URL against

  url.match(/github.com[:/](.+?)(?:\.git)?$/i)

and keeps capture group 1.  The JS semantics embedded below:
- the match may start at any position; `String.match` finds the leftmost
  start position at which the whole pattern can complete;
- the `.` in `github.com` is an unescaped wildcard: it matches any character
  except a line terminator;
- the `i` flag makes every letter case-insensitive (including the escaped
  `\.git` tail, whose `g`, `i`, `t` are letters);
- `(.+?)` is lazy: among the completions at the chosen start position the
  shortest non-empty capture wins; every captured character must match `.`;
- `(?:\.git)?` is greedy and is immediately followed by `$` (end of input,
  no `m` flag), so the capture is the rest of the string with a final
  case-insensitive `.git` removed when that leaves a non-empty capture.
-/

/-- Case-insensitive character comparison, as the regex `i` flag. -/
def ciEq (a b : Char) : Bool := a.toLower == b.toLower

/-- What the unescaped `.` wildcard matches: any char except a JS line
terminator. -/
def dotMatch (c : Char) : Bool :=
  !(c == '\n' || c == '\r' || c == ' ' || c == ' ')

/-- Match the `github.com[:/]` part of the pattern against the front of the
input: six case-insensitive letters `github`, a wildcard in place of the
unescaped dot, case-insensitive `com`, then `:` or `/`.  Returns the rest of
the input after the separator. -/
def matchMarker : Str → Option Str
  | c0 :: c1 :: c2 :: c3 :: c4 :: c5 :: c6 :: c7 :: c8 :: c9 :: c10 :: rest =>
    if ciEq c0 'g' && ciEq c1 'i' && ciEq c2 't' && ciEq c3 'h' && ciEq c4 'u' &&
       ciEq c5 'b' && dotMatch c6 && ciEq c7 'c' && ciEq c8 'o' && ciEq c9 'm' &&
       (c10 == ':' || c10 == '/')
    then some rest else none
  | _ => none

/-- Is the reversed input of the form `t`, `i`, `g`, `.`, ... (i.e. does the
input end in a case-insensitive `.git`)? -/
def gitSuffixRev : Str → Bool
  | t0 :: i0 :: g0 :: d0 :: _ =>
    ciEq t0 't' && ciEq i0 'i' && ciEq g0 'g' && (d0 == '.')
  | _ => false

/-- Does the input end in a case-insensitive `.git`? -/
def endsWithGitCi (r : Str) : Bool := gitSuffixRev r.reverse

/-- Match `(.+?)(?:\.git)?$` against the whole remainder `r`, returning the
capture.  The two completions at a fixed start are capture `= r` minus a
final `.git`, or capture `= r`; laziness prefers the shorter, the capture
must be non-empty, and each captured char must match `.`. -/
def matchTail (r : Str) : Option Str :=
  if endsWithGitCi r = true ∧ 5 ≤ r.length then
    if (r.take (r.length - 4)).all dotMatch = true then
      some (r.take (r.length - 4))
    else none
  else
    if r ≠ [] ∧ r.all dotMatch = true then some r else none

/-- The full match: scan start positions left to right; at each, require the
marker and then the tail; on failure advance one character. The result is
capture group 1 of `url.match(/github.com[:/](.+?)(?:\.git)?$/i)`. -/
def findRepoId : Str → Option Str
  | [] => none
  | c :: rest =>
    ((matchMarker (c :: rest)).bind matchTail).orElse (fun _ => findRepoId rest)

/-! ## String utilities used by the resolver -/

/-- Whitespace for `String.prototype.trim` (the characters that can actually
occur in `git` output). -/
def isWS (c : Char) : Bool := c == ' ' || c == '\t' || c == '\n' || c == '\r'

/-- `String.prototype.trim`. -/
def trim (s : Str) : Str := ((s.dropWhile isWS).reverse.dropWhile isWS).reverse

/-- `String.prototype.split('/')`: split on `/`, keeping empty segments; the
result is always non-empty. -/
def splitSlash : Str → List Str
  | [] => [[]]
  | c :: rest =>
    if c = '/' then [] :: splitSlash rest
    else
      match splitSlash rest with
      | h :: t => (c :: h) :: t
      | [] => [[c]]

/-! ## Data model -/

/-- The `GitHubRepositoryDescription` typedef: a repository reference plus
the full `owner/repo` id. -/
structure GitHubRepositoryDescription where
  owner : Str
  repo : Str
  repoId : Str
deriving DecidableEq

/-- A `NetRCEntry`: one host's record in the `.netrc` file. -/
structure NetRCEntry where
  login : Option Str := none
  password : Str
  account : Option Str := none
  macdef : Option Str := none
deriving DecidableEq

/-- The loaded `.netrc` mapping, host name to entry (a JS object viewed as a
map that is undefined on absent keys). -/
def NetRC := Str → Option NetRCEntry

def ghHost : Str := "github.com".data
def apiGhHost : Str := "api.github.com".data

/-! ## Remote-URL Resolver (`resolveGithubProject`, src/index.js 191-216)

The three `execSync` git invocations are the external collaborator; `GitEnv`
gives each command's outcome for the directory the function was called on
(`none` models a command exiting nonzero, which makes `execSync` throw). -/

/-- Outcomes of the git commands run by `resolveGithubProject` in the target
directory: `git rev-parse --abbrev-ref HEAD`, `git rev-parse --abbrev-ref
BRANCH@{upstream}`, `git remote get-url REMOTE`.  Raw (untrimmed) stdout, or
`none` when the command fails. -/
structure GitEnv where
  currentBranch : Option Str
  upstreamOf : Str → Option Str
  remoteUrl : Str → Option Str

/-- The body of the `try` block of `resolveGithubProject`: `none` collapses
both a throwing git command and the explicit `NOT_GITHUB_REMOTE` throw
(reaching the single `catch`). -/
def resolveInner (env : GitEnv) : Option GitHubRepositoryDescription :=
  match env.currentBranch with
  | none => none
  | some cb =>
    match env.upstreamOf (trim cb) with
    | none => none
    | some rb =>
      match env.remoteUrl ((splitSlash (trim rb)).headD []) with
      | none => none
      | some url =>
        match findRepoId (trim url) with
        | none => none
        | some repoId =>
          if (splitSlash repoId).headD [] = [] ∨
             ((splitSlash repoId).drop 1).headD [] = [] then none
          else
            some ⟨(splitSlash repoId).headD [],
                  ((splitSlash repoId).drop 1).headD [], repoId⟩

/-- The fixed message of the single `catch` clause. -/
def notGitRepoMsg : Str := "Not in a git repository?".data

/-- `resolveGithubProject(dir)`: every failure inside the `try` is collapsed
into one thrown error with a fixed message. -/
def resolveGithubProject (env : GitEnv) :
    Except Str GitHubRepositoryDescription :=
  match resolveInner env with
  | some d => .ok d
  | none => .error notGitRepoMsg

/-! ## Credential Validator (`checkCredentials`, src/index.js 115-124)

The one outbound call is `api.users.getAuthenticated()`; its outcome for a
given candidate token is the oracle `api : Str -> Except Str Unit` (`.error
e` covers a network failure, a 401 rejection, a malformed response, or a
throwing client construction, with `e` the caught error's message). -/

/-- `checkCredentials(token)`: the whole body is inside `try`/`catch`, so the
function is total; it returns `true` with no warning when the identity call
succeeds, `false` plus the caught message as a warning otherwise. -/
def checkCredentials (api : Str → Except Str Unit) (token : Str) :
    Bool × List Str :=
  match api token with
  | .ok _ => (true, [])
  | .error e => (false, [e])

/-! ## Interactive Credential Prompt (`promptForToken`, src/index.js 67-105)

The inquirer answers are a script: each element is one loop iteration's
username, token, and (if asked) save-confirmation answer.  The returned
trace is the outcome, the list of `netrc.save` payloads written, and the
number of interactive attempts consumed. -/

/-- One scripted round of interactive answers. -/
structure PromptAttempt where
  name : Str
  token : Str
  save : Bool
deriving DecidableEq

/-- How a `promptForToken` run ends: a returned token, `process.exit(code)`
(a hard stop, not a value any caller receives), or the script ran dry (the
process would still be blocked waiting on the human). -/
inductive PromptOutcome where
  | token (t : Str)
  | exited (code : Nat)
  | noInput
deriving DecidableEq

/-- The mapping written by `netrc.save({...rc, 'github.com': {login: name,
password: token}})`: the `github.com` entry is replaced by a fresh
two-field record, every other host keeps its record from `rc`. -/
def savedRC (rc : NetRC) (name token : Str) : NetRC :=
  fun h =>
    if h = ghHost then
      some { login := some name, password := token }
    else rc h

/-- `promptForToken(rc, attempts, maxAttempts)`.  Mirrors the source: bail
out with `process.exit(1)` when `attempts >= maxAttempts`; otherwise consume
one scripted round, validate its token, on success optionally save and
return the token, on failure recurse — and the recursive call
`promptForToken(rc, attempts + 1)` passes no third argument, so the bound
reverts to the default `3`. -/
def promptForToken (api : Str → Except Str Unit) (script : List PromptAttempt)
    (rc : NetRC) (attempts : Nat := 0) (maxAttempts : Nat := 3) :
    PromptOutcome × List NetRC × Nat :=
  if attempts ≥ maxAttempts then (.exited 1, [], 0)
  else
    match script with
    | [] => (.noInput, [], 0)
    | a :: rest =>
      if (checkCredentials api a.token).1 then
        if a.save then (.token a.token, [savedRC rc a.name a.token], 1)
        else (.token a.token, [], 1)
      else
        let r := promptForToken api rest rc (attempts + 1) 3
        (r.1, r.2.1, r.2.2 + 1)

/-! ## Token lookup and the API Client Factory (src/index.js 44-57, 136-147) -/

/-- The token expression of `getToken`:
`rc['github.com']?.password ?? rc['api.github.com']?.password` (nullish
coalescing: an existing `github.com` entry wins even when its password is
the empty string). -/
def storedToken (rc : NetRC) : Option Str :=
  match rc ghHost with
  | some e => some e.password
  | none =>
    match rc apiGhHost with
    | some e => some e.password
    | none => none

/-- `getToken()`: return the stored token; when there is none — or it is
empty, since `if (!token) throw` treats the empty string as missing — fall
back to `promptForToken(rc)` with the default attempt budget. -/
def getToken (api : Str → Except Str Unit) (script : List PromptAttempt)
    (rc : NetRC) : PromptOutcome × List NetRC × Nat :=
  match storedToken rc with
  | some t => if t = [] then promptForToken api script rc else (.token t, [], 0)
  | none => promptForToken api script rc

/-- The authenticated client: `new octokit.Octokit({auth: ...})` wrapping
the literal auth string built from the token. -/
structure Octokit where
  auth : Str
deriving DecidableEq

def mkOctokit (token : Str) : Octokit := ⟨"token ".data ++ token⟩

/-- How a `getGithubAPI` call ends. -/
inductive GHOutcome where
  | client (c : Octokit)
  | exited (code : Nat)
  | noInput
deriving DecidableEq

/-- One `getGithubAPI` call's observable result: the outcome, the value of
the module-level `github` variable after the call, the `netrc.save` payloads
written, and the number of interactive prompt rounds consumed. -/
structure GHResult where
  outcome : GHOutcome
  github : Option Octokit
  saves : List NetRC
  prompts : Nat

/-- `getGithubAPI()` (the default export).  `github` is the module-level
variable: when set, it is returned at once.  Otherwise run `getToken`,
re-validate whatever token it produced, prompt again on failure, and build a
fresh client.  The source never assigns `github`, so the returned state
records `none` on every non-cached path — exactly as in src/index.js, where
the `if (github)` guard is the only mention of the variable besides its
declaration.  Both `netrc()` reads (in `getToken` and in the bare
`promptForToken()` fallback) see the same loaded mapping `rc`; the fallback
prompt consumes the script where `getToken` left off. -/
def getGithubAPI (api : Str → Except Str Unit) (script : List PromptAttempt)
    (rc : NetRC) (github : Option Octokit) : GHResult :=
  match github with
  | some g => ⟨.client g, some g, [], 0⟩
  | none =>
    match getToken api script rc with
    | (.token t, saves1, n1) =>
      if (checkCredentials api t).1 then
        ⟨.client (mkOctokit t), none, saves1, n1⟩
      else
        match promptForToken api (script.drop n1) rc with
        | (.token t2, saves2, n2) =>
          ⟨.client (mkOctokit t2), none, saves1 ++ saves2, n1 + n2⟩
        | (.exited c, saves2, n2) => ⟨.exited c, none, saves1 ++ saves2, n1 + n2⟩
        | (.noInput, saves2, n2) => ⟨.noInput, none, saves1 ++ saves2, n1 + n2⟩
    | (.exited c, saves1, n1) => ⟨.exited c, none, saves1, n1⟩
    | (.noInput, saves1, n1) => ⟨.noInput, none, saves1, n1⟩

/-! ## Dispatch Operation (`dispatchEvent`, src/index.js 164-177) -/

/-- The `to` argument: a directory path (a JS string) or a repository
reference object, whose `repoId` property may be absent. -/
inductive DispatchTarget where
  | path (dir : Str)
  | ref (owner repo : Str) (repoId : Option Str)

/-- One `api.repos.createDispatchEvent` invocation's payload. -/
structure DispatchCall where
  owner : Str
  repo : Str
  event_type : Str
deriving DecidableEq

/-- How a `dispatchEvent` call ends: the returned message record, a thrown
error (resolution failure or a remote dispatch failure, both uncaught), or a
terminal outcome inherited from the credential flow. -/
inductive DispatchOutcome where
  | ok (message : Str)
  | thrown (e : Str)
  | exited (code : Nat)
  | noInput
deriving DecidableEq

/-- `dispatchEvent(to, eventType)`.  Destructure `owner`, `repo`, `repoId`
(defaulting `repoId` to `owner + '/' + repo`) from either
`resolveGithubProject(to)` or `to` itself; get the client; fire exactly one
dispatch call; return the confirmation message.  `env` is the git context
of the directory named by a path target; `dapi` is the remote outcome of a
dispatch call made with a given client.  The second component is the list
of dispatch calls issued. -/
def dispatchEvent (env : GitEnv) (api : Str → Except Str Unit)
    (dapi : Octokit → DispatchCall → Except Str Unit)
    (script : List PromptAttempt) (rc : NetRC) (github : Option Octokit)
    (target : DispatchTarget) (eventType : Str) :
    DispatchOutcome × List DispatchCall :=
  let resolved : Except Str (Str × Str × Str) :=
    match target with
    | .path _ =>
      match resolveGithubProject env with
      | .ok d => .ok (d.owner, d.repo, d.repoId)
      | .error e => .error e
    | .ref o r rid => .ok (o, r, rid.getD (o ++ '/' :: r))
  match resolved with
  | .error e => (.thrown e, [])
  | .ok (owner, repo, repoId) =>
    match (getGithubAPI api script rc github).outcome with
    | .client c =>
      match dapi c ⟨owner, repo, eventType⟩ with
      | .ok _ =>
        (.ok ("(".data ++ repoId ++ ") ".data ++ eventType ++
              " event dispatched.".data),
         [⟨owner, repo, eventType⟩])
      | .error e => (.thrown e, [⟨owner, repo, eventType⟩])
    | .exited code => (.exited code, [])
    | .noInput => (.noInput, [])

/-! ## Theorems -/

/-- C8: `checkCredentials(token)` never throws (it is total, returning a
boolean plus warning trace): for every token and every outcome of the remote
"get authenticated identity" call it returns `true` exactly when the call
succeeds, and on any failure returns `false` with the failure message as the
only warning. -/
theorem checkCredentials_spec (api : Str → Except Str Unit) (token : Str) :
    ((checkCredentials api token).1 = true ↔ api token = .ok ())
    ∧ (∀ e, api token = .error e → checkCredentials api token = (false, [e]))
    ∧ (api token = .ok () → checkCredentials api token = (true, [])) := by
  rcases h : api token with e | u
  · simp [checkCredentials, h]
  · cases u
    simp [checkCredentials, h]

theorem checkCredentials_spec_witness :
    checkCredentials (fun _ => .ok ()) "t".data = (true, [])
    ∧ checkCredentials (fun _ => .error "boom".data) "t".data =
        (false, ["boom".data]) :=
  ⟨(checkCredentials_spec (fun _ => .ok ()) "t".data).2.2 rfl,
   (checkCredentials_spec (fun _ => .error "boom".data) "t".data).2.1 _ rfl⟩

/-- C1: the claim says the factory memoizes its client, but the source never
assigns the module-level `github` variable: after a first call that starts
with an unset cache, the cache is still unset, whatever happened — so a
second call can never take the cached branch and instead re-runs the whole
credential sequence. -/
theorem getGithubAPI_never_caches (api : Str → Except Str Unit)
    (script : List PromptAttempt) (rc : NetRC) :
    (getGithubAPI api script rc none).github = none := by
  rcases h : getToken api script rc with ⟨o, s1, n1⟩
  rcases o with t | c | _
  · by_cases hc : (checkCredentials api t).1
    · simp [getGithubAPI, h, hc]
    · rcases h2 : promptForToken api (script.drop n1) rc with ⟨o2, s2, n2⟩
      rcases o2 with t2 | c2 | _ <;> simp [getGithubAPI, h, hc, h2]
  · simp [getGithubAPI, h]
  · simp [getGithubAPI, h]

/-- Once the attempt budget is exhausted the loop exits the process at once,
whatever interactive input would still be available. -/
theorem promptForToken_exhausted (api : Str → Except Str Unit)
    (script : List PromptAttempt) (rc : NetRC) (attempts maxAttempts : Nat)
    (h : attempts ≥ maxAttempts) :
    promptForToken api script rc attempts maxAttempts = (.exited 1, [], 0) := by
  cases script <;> simp [promptForToken, h]

/-- C5: a `promptForToken` run with the default budget in which three
consecutive attempts fail validation ends in `process.exit(1)` — a hard
stop, not a returned value — with no credential-file write and exactly three
interactive attempts consumed. -/
theorem promptForToken_three_failures (api : Str → Except Str Unit)
    (a1 a2 a3 : PromptAttempt) (rest : List PromptAttempt) (rc : NetRC)
    (h1 : (checkCredentials api a1.token).1 = false)
    (h2 : (checkCredentials api a2.token).1 = false)
    (h3 : (checkCredentials api a3.token).1 = false) :
    promptForToken api (a1 :: a2 :: a3 :: rest) rc =
      (.exited 1, [], 3) := by
  simp [promptForToken, h1, h2, h3, promptForToken_exhausted]

theorem promptForToken_three_failures_witness :
    promptForToken (fun _ => .error "bad credentials".data)
      [⟨"u1".data, "t1".data, false⟩, ⟨"u2".data, "t2".data, false⟩,
       ⟨"u3".data, "t3".data, false⟩] (fun _ => none) =
      (.exited 1, [], 3) :=
  promptForToken_three_failures _ _ _ _ _ _ rfl rfl rfl

/-- C9: the recursive retry call `promptForToken(rc, attempts + 1)` passes
no `maxAttempts`, so the bound reverts to the default 3 after the first
failure: an initial call with any bound `m ≥ 1` whose validations all fail
exits after exactly 3 failed attempts, regardless of `m`. -/
theorem promptForToken_ignores_maxAttempts (api : Str → Except Str Unit)
    (a1 a2 a3 : PromptAttempt) (rest : List PromptAttempt) (rc : NetRC)
    (m : Nat) (hm : 1 ≤ m)
    (h1 : (checkCredentials api a1.token).1 = false)
    (h2 : (checkCredentials api a2.token).1 = false)
    (h3 : (checkCredentials api a3.token).1 = false) :
    promptForToken api (a1 :: a2 :: a3 :: rest) rc 0 m =
      (.exited 1, [], 3) := by
  have h0 : ¬ (0 ≥ m) := by omega
  simp [promptForToken, h0, h1, h2, h3, promptForToken_exhausted]

theorem promptForToken_ignores_maxAttempts_witness :
    promptForToken (fun _ => .error "nope".data)
      [⟨"a".data, "x1".data, false⟩, ⟨"b".data, "x2".data, false⟩,
       ⟨"c".data, "x3".data, false⟩, ⟨"d".data, "x4".data, false⟩,
       ⟨"e".data, "x5".data, false⟩] (fun _ => none) 0 5 =
      (.exited 1, [], 3) :=
  promptForToken_ignores_maxAttempts _ _ _ _ _ _ 5 (by decide)
    rfl rfl rfl

/-- C7: when an interactive attempt validates successfully and the user
confirms saving, the credential file is rewritten with the entered token
under the `github.com` host key as a login/password record, every other
host's entry unchanged; when the user declines, nothing is written. -/
theorem promptForToken_save_semantics (api : Str → Except Str Unit)
    (a : PromptAttempt) (rest : List PromptAttempt) (rc : NetRC)
    (attempts maxAttempts : Nat) (hlt : attempts < maxAttempts)
    (hok : (checkCredentials api a.token).1 = true) :
    (a.save = true →
      promptForToken api (a :: rest) rc attempts maxAttempts =
        (.token a.token, [savedRC rc a.name a.token], 1)
      ∧ savedRC rc a.name a.token ghHost =
          some { login := some a.name, password := a.token }
      ∧ ∀ h, h ≠ ghHost → savedRC rc a.name a.token h = rc h)
    ∧ (a.save = false →
      promptForToken api (a :: rest) rc attempts maxAttempts =
        (.token a.token, [], 1)) := by
  have hge : ¬ (attempts ≥ maxAttempts) := by omega
  constructor
  · intro hs
    refine ⟨by simp [promptForToken, hge, hok, hs], by simp [savedRC], ?_⟩
    intro h hh
    simp [savedRC, hh]
  · intro hs
    simp [promptForToken, hge, hok, hs]

theorem promptForToken_save_semantics_witness :
    (promptForToken (fun _ => .ok ()) [⟨"alice".data, "tok".data, true⟩]
        (fun _ => none) =
      (.token "tok".data,
       [savedRC (fun _ => none) "alice".data "tok".data], 1))
    ∧ (promptForToken (fun _ => .ok ()) [⟨"bob".data, "tok2".data, false⟩]
        (fun _ => none) = (.token "tok2".data, [], 1)) :=
  ⟨((promptForToken_save_semantics (fun _ => .ok ())
      ⟨"alice".data, "tok".data, true⟩ [] (fun _ => none) 0 3
      (by decide) rfl).1 rfl).1,
   (promptForToken_save_semantics (fun _ => .ok ())
      ⟨"bob".data, "tok2".data, false⟩ [] (fun _ => none) 0 3
      (by decide) rfl).2 rfl⟩

/-- C6: with a stored token under `github.com` or `api.github.com` that is
non-empty and validates against the remote API, the client factory consumes
no interactive prompt at all. -/
theorem getGithubAPI_no_prompt (api : Str → Except Str Unit)
    (script : List PromptAttempt) (rc : NetRC) (gh : Option Octokit) (t : Str)
    (hstored : storedToken rc = some t) (hne : t ≠ [])
    (hvalid : api t = .ok ()) :
    (getGithubAPI api script rc gh).prompts = 0 := by
  rcases gh with _ | g
  · have hget : getToken api script rc = (.token t, [], 0) := by
      simp [getToken, hstored, hne]
    have hchk : (checkCredentials api t).1 = true := by
      simp [checkCredentials, hvalid]
    simp [getGithubAPI, hget, hchk]
  · simp [getGithubAPI]

theorem getGithubAPI_no_prompt_witness :
    (getGithubAPI (fun _ => .ok ()) []
      (fun h => if h = ghHost then
          some { login := none, password := "tok".data,
                 account := none, macdef := none }
        else none) none).prompts = 0 :=
  getGithubAPI_no_prompt _ _ _ _ "tok".data (by decide) (by decide) rfl

/-- C4: every failure of `resolveGithubProject` — no current branch (not a
git repository), no upstream for the branch, no resolvable remote URL, or a
remote URL the regex cannot map to an owner/repo pair — is surfaced as a
thrown error with the one fixed message, and no other error message ever
leaves the function. -/
theorem resolveGithubProject_collapsed_errors (env : GitEnv) :
    (∀ e, resolveGithubProject env = .error e → e = notGitRepoMsg)
    ∧ (env.currentBranch = none →
        resolveGithubProject env = .error notGitRepoMsg)
    ∧ (∀ cb, env.currentBranch = some cb →
        env.upstreamOf (trim cb) = none →
        resolveGithubProject env = .error notGitRepoMsg)
    ∧ (∀ cb rb, env.currentBranch = some cb →
        env.upstreamOf (trim cb) = some rb →
        env.remoteUrl ((splitSlash (trim rb)).headD []) = none →
        resolveGithubProject env = .error notGitRepoMsg)
    ∧ (∀ cb rb url, env.currentBranch = some cb →
        env.upstreamOf (trim cb) = some rb →
        env.remoteUrl ((splitSlash (trim rb)).headD []) = some url →
        findRepoId (trim url) = none →
        resolveGithubProject env = .error notGitRepoMsg) := by
  refine ⟨?_, ?_, ?_, ?_, ?_⟩
  · intro e he
    rcases h : resolveInner env with _ | d
    · unfold resolveGithubProject at he
      rw [h] at he
      exact (Except.error.inj he).symm
    · unfold resolveGithubProject at he
      rw [h] at he
      simp at he
  · intro h0
    simp [resolveGithubProject, resolveInner, h0]
  · intro cb h0 h1
    simp [resolveGithubProject, resolveInner, h0, h1]
  · intro cb rb h0 h1 h2
    simp only [List.headD_eq_head?] at h2
    simp [resolveGithubProject, resolveInner, h0, h1, h2]
  · intro cb rb url h0 h1 h2 h3
    simp only [List.headD_eq_head?] at h2
    simp [resolveGithubProject, resolveInner, h0, h1, h2, h3]

theorem resolveGithubProject_collapsed_errors_witness :
    resolveGithubProject ⟨none, fun _ => none, fun _ => none⟩ =
      .error notGitRepoMsg
    ∧ resolveGithubProject ⟨some "main".data, fun _ => none, fun _ => none⟩ =
      .error notGitRepoMsg
    ∧ resolveGithubProject ⟨some "main".data,
        fun _ => some "origin/main".data,
        fun _ => some "https://example.com/x.git".data⟩ =
      .error notGitRepoMsg :=
  ⟨(resolveGithubProject_collapsed_errors _).2.1 rfl,
   (resolveGithubProject_collapsed_errors
      ⟨some "main".data, fun _ => none, fun _ => none⟩).2.2.1
     "main".data rfl rfl,
   (resolveGithubProject_collapsed_errors _).2.2.2.2 "main".data
     "origin/main".data "https://example.com/x.git".data rfl rfl rfl
     (by decide)⟩

/-! ## Lemmas about the regex model -/

theorem matchMarker_none {c0 c1 c2 c3 c4 c5 c6 c7 c8 c9 c10 : Char} {rest : Str}
    (h : (ciEq c0 'g' && ciEq c1 'i' && ciEq c2 't' && ciEq c3 'h' && ciEq c4 'u' &&
          ciEq c5 'b' && dotMatch c6 && ciEq c7 'c' && ciEq c8 'o' && ciEq c9 'm' &&
          (c10 == ':' || c10 == '/')) = false) :
    matchMarker (c0 :: c1 :: c2 :: c3 :: c4 :: c5 :: c6 :: c7 :: c8 :: c9 :: c10 ::
      rest) = none := by
  simp [matchMarker, h]

theorem matchMarker_some {c0 c1 c2 c3 c4 c5 c6 c7 c8 c9 c10 : Char} {rest : Str}
    (h : (ciEq c0 'g' && ciEq c1 'i' && ciEq c2 't' && ciEq c3 'h' && ciEq c4 'u' &&
          ciEq c5 'b' && dotMatch c6 && ciEq c7 'c' && ciEq c8 'o' && ciEq c9 'm' &&
          (c10 == ':' || c10 == '/')) = true) :
    matchMarker (c0 :: c1 :: c2 :: c3 :: c4 :: c5 :: c6 :: c7 :: c8 :: c9 :: c10 ::
      rest) = some rest := by
  simp [matchMarker, h]

theorem findRepoId_skip {c : Char} {rest : Str}
    (h : matchMarker (c :: rest) = none) :
    findRepoId (c :: rest) = findRepoId rest := by
  simp [findRepoId, h, Option.orElse]

theorem findRepoId_hit {c : Char} {rest r cap : Str}
    (h1 : matchMarker (c :: rest) = some r) (h2 : matchTail r = some cap) :
    findRepoId (c :: rest) = some cap := by
  simp [findRepoId, h1, h2, Option.orElse]

theorem take_len_append (xs ys : List Char) : (xs ++ ys).take xs.length = xs := by
  induction xs with
  | nil => rfl
  | cons a l ih => simp [ih]

theorem endsWithGitCi_append_git (X : Str) :
    endsWithGitCi (X ++ ".git".data) = true := by
  have h1 : ".git".data = ['.', 'g', 'i', 't'] := rfl
  have h2 : (X ++ ['.', 'g', 'i', 't']).reverse =
      't' :: 'i' :: 'g' :: '.' :: X.reverse := by simp
  unfold endsWithGitCi
  rw [h1, h2]
  rw [show gitSuffixRev ('t' :: 'i' :: 'g' :: '.' :: X.reverse) =
        (ciEq 't' 't' && ciEq 'i' 'i' && ciEq 'g' 'g' && ('.' == '.')) from rfl]
  decide

theorem matchTail_gitSuffix (X : Str) (hne : X ≠ []) (hd : X.all dotMatch = true) :
    matchTail (X ++ ".git".data) = some X := by
  have hpos : 0 < X.length := List.length_pos.mpr hne
  have hends := endsWithGitCi_append_git X
  have hlen : (X ++ ".git".data).length = X.length + 4 := by simp
  have htake : (X ++ ".git".data).take ((X ++ ".git".data).length - 4) = X := by
    rw [hlen, Nat.add_sub_cancel]
    exact take_len_append X _
  unfold matchTail
  rw [if_pos ⟨hends, by rw [hlen]; omega⟩, htake, if_pos hd]

theorem matchTail_noGit (X : Str) (hne : X ≠ []) (hd : X.all dotMatch = true)
    (hng : endsWithGitCi X = false) :
    matchTail X = some X := by
  unfold matchTail
  rw [if_neg (by simp [hng]), if_pos ⟨hne, hd⟩]

theorem splitSlash_no_slash (R : Str) (h : '/' ∉ R) : splitSlash R = [R] := by
  induction R with
  | nil => rfl
  | cons c cs ih =>
    simp only [List.mem_cons, not_or] at h
    have hc : c ≠ '/' := fun hh => h.1 hh.symm
    simp [splitSlash, hc, ih h.2]

theorem splitSlash_two (O R : Str) (hO : '/' ∉ O) (hR : '/' ∉ R) :
    splitSlash (O ++ '/' :: R) = [O, R] := by
  induction O with
  | nil => simp [splitSlash, splitSlash_no_slash R hR]
  | cons c cs ih =>
    simp only [List.mem_cons, not_or] at hO
    have hc : c ≠ '/' := fun hh => hO.1 hh.symm
    have ih2 := ih hO.2
    simp [splitSlash, hc, ih2]

/-- Scanning `git@github.com:` + tail: the marker first completes at the
char after `git@`. -/
theorem findRepoId_gitAtForm (T cap : Str) (hT : matchTail T = some cap) :
    findRepoId ("git@github.com:".data ++ T) = some cap := by
  rw [show "git@github.com:".data =
      ['g', 'i', 't', '@', 'g', 'i', 't', 'h', 'u', 'b', '.', 'c', 'o', 'm', ':']
      from rfl]
  simp only [List.cons_append, List.nil_append]
  have s0 : matchMarker ('g' :: 'i' :: 't' :: '@' :: 'g' :: 'i' :: 't' :: 'h' ::
      'u' :: 'b' :: '.' :: 'c' :: 'o' :: 'm' :: ':' :: T) = none :=
    matchMarker_none (by decide)
  have s1 : matchMarker ('i' :: 't' :: '@' :: 'g' :: 'i' :: 't' :: 'h' :: 'u' ::
      'b' :: '.' :: 'c' :: 'o' :: 'm' :: ':' :: T) = none :=
    matchMarker_none (by decide)
  have s2 : matchMarker ('t' :: '@' :: 'g' :: 'i' :: 't' :: 'h' :: 'u' :: 'b' ::
      '.' :: 'c' :: 'o' :: 'm' :: ':' :: T) = none :=
    matchMarker_none (by decide)
  have s3 : matchMarker ('@' :: 'g' :: 'i' :: 't' :: 'h' :: 'u' :: 'b' :: '.' ::
      'c' :: 'o' :: 'm' :: ':' :: T) = none :=
    matchMarker_none (by decide)
  have s4 : matchMarker ('g' :: 'i' :: 't' :: 'h' :: 'u' :: 'b' :: '.' :: 'c' ::
      'o' :: 'm' :: ':' :: T) = some T :=
    matchMarker_some (by decide)
  rw [findRepoId_skip s0, findRepoId_skip s1, findRepoId_skip s2,
      findRepoId_skip s3, findRepoId_hit s4 hT]

/-- Scanning `https://github.com/` + tail: the marker first completes at the
char after the double slash. -/
theorem findRepoId_httpsForm (T cap : Str) (hT : matchTail T = some cap) :
    findRepoId ("https://github.com/".data ++ T) = some cap := by
  rw [show "https://github.com/".data =
      ['h', 't', 't', 'p', 's', ':', '/', '/', 'g', 'i', 't', 'h', 'u', 'b',
       '.', 'c', 'o', 'm', '/'] from rfl]
  simp only [List.cons_append, List.nil_append]
  have s0 : matchMarker ('h' :: 't' :: 't' :: 'p' :: 's' :: ':' :: '/' :: '/' ::
      'g' :: 'i' :: 't' :: 'h' :: 'u' :: 'b' :: '.' :: 'c' :: 'o' :: 'm' :: '/' ::
      T) = none := matchMarker_none (by decide)
  have s1 : matchMarker ('t' :: 't' :: 'p' :: 's' :: ':' :: '/' :: '/' :: 'g' ::
      'i' :: 't' :: 'h' :: 'u' :: 'b' :: '.' :: 'c' :: 'o' :: 'm' :: '/' :: T) =
      none := matchMarker_none (by decide)
  have s2 : matchMarker ('t' :: 'p' :: 's' :: ':' :: '/' :: '/' :: 'g' :: 'i' ::
      't' :: 'h' :: 'u' :: 'b' :: '.' :: 'c' :: 'o' :: 'm' :: '/' :: T) = none :=
    matchMarker_none (by decide)
  have s3 : matchMarker ('p' :: 's' :: ':' :: '/' :: '/' :: 'g' :: 'i' :: 't' ::
      'h' :: 'u' :: 'b' :: '.' :: 'c' :: 'o' :: 'm' :: '/' :: T) = none :=
    matchMarker_none (by decide)
  have s4 : matchMarker ('s' :: ':' :: '/' :: '/' :: 'g' :: 'i' :: 't' :: 'h' ::
      'u' :: 'b' :: '.' :: 'c' :: 'o' :: 'm' :: '/' :: T) = none :=
    matchMarker_none (by decide)
  have s5 : matchMarker (':' :: '/' :: '/' :: 'g' :: 'i' :: 't' :: 'h' :: 'u' ::
      'b' :: '.' :: 'c' :: 'o' :: 'm' :: '/' :: T) = none :=
    matchMarker_none (by decide)
  have s6 : matchMarker ('/' :: '/' :: 'g' :: 'i' :: 't' :: 'h' :: 'u' :: 'b' ::
      '.' :: 'c' :: 'o' :: 'm' :: '/' :: T) = none :=
    matchMarker_none (by decide)
  have s7 : matchMarker ('/' :: 'g' :: 'i' :: 't' :: 'h' :: 'u' :: 'b' :: '.' ::
      'c' :: 'o' :: 'm' :: '/' :: T) = none :=
    matchMarker_none (by decide)
  have s8 : matchMarker ('g' :: 'i' :: 't' :: 'h' :: 'u' :: 'b' :: '.' :: 'c' ::
      'o' :: 'm' :: '/' :: T) = some T :=
    matchMarker_some (by decide)
  rw [findRepoId_skip s0, findRepoId_skip s1, findRepoId_skip s2,
      findRepoId_skip s3, findRepoId_skip s4, findRepoId_skip s5,
      findRepoId_skip s6, findRepoId_skip s7, findRepoId_hit s8 hT]

/-- Scanning `https://` + a loose marker: any case-insensitive `github`, ANY
non-line-terminator character where the pattern has its unescaped dot, a
case-insensitive `com`, and either separator, all complete the marker at
position 8. -/
theorem findRepoId_looseHttps (g0 i0 t0 h0 u0 b0 d0 c0 o0 m0 sep : Char)
    (T cap : Str)
    (hg0 : ciEq g0 'g' = true) (hi0 : ciEq i0 'i' = true)
    (ht0 : ciEq t0 't' = true) (hh0 : ciEq h0 'h' = true)
    (hu0 : ciEq u0 'u' = true) (hb0 : ciEq b0 'b' = true)
    (hd0 : dotMatch d0 = true) (hc0 : ciEq c0 'c' = true)
    (ho0 : ciEq o0 'o' = true) (hm0 : ciEq m0 'm' = true)
    (hsep : (sep == ':' || sep == '/') = true)
    (hT : matchTail T = some cap) :
    findRepoId ('h' :: 't' :: 't' :: 'p' :: 's' :: ':' :: '/' :: '/' ::
      g0 :: i0 :: t0 :: h0 :: u0 :: b0 :: d0 :: c0 :: o0 :: m0 :: sep :: T) =
      some cap := by
  have s0 : matchMarker ('h' :: 't' :: 't' :: 'p' :: 's' :: ':' :: '/' :: '/' ::
      g0 :: i0 :: t0 :: h0 :: u0 :: b0 :: d0 :: c0 :: o0 :: m0 :: sep :: T) =
      none := matchMarker_none (by
    simp [show ciEq 'h' 'g' = false from by decide])
  have s1 : matchMarker ('t' :: 't' :: 'p' :: 's' :: ':' :: '/' :: '/' :: g0 ::
      i0 :: t0 :: h0 :: u0 :: b0 :: d0 :: c0 :: o0 :: m0 :: sep :: T) = none :=
    matchMarker_none (by simp [show ciEq 't' 'g' = false from by decide])
  have s2 : matchMarker ('t' :: 'p' :: 's' :: ':' :: '/' :: '/' :: g0 :: i0 ::
      t0 :: h0 :: u0 :: b0 :: d0 :: c0 :: o0 :: m0 :: sep :: T) = none :=
    matchMarker_none (by simp [show ciEq 't' 'g' = false from by decide])
  have s3 : matchMarker ('p' :: 's' :: ':' :: '/' :: '/' :: g0 :: i0 :: t0 ::
      h0 :: u0 :: b0 :: d0 :: c0 :: o0 :: m0 :: sep :: T) = none :=
    matchMarker_none (by simp [show ciEq 'p' 'g' = false from by decide])
  have s4 : matchMarker ('s' :: ':' :: '/' :: '/' :: g0 :: i0 :: t0 :: h0 ::
      u0 :: b0 :: d0 :: c0 :: o0 :: m0 :: sep :: T) = none :=
    matchMarker_none (by simp [show ciEq 's' 'g' = false from by decide])
  have s5 : matchMarker (':' :: '/' :: '/' :: g0 :: i0 :: t0 :: h0 :: u0 ::
      b0 :: d0 :: c0 :: o0 :: m0 :: sep :: T) = none :=
    matchMarker_none (by simp [show ciEq ':' 'g' = false from by decide])
  have s6 : matchMarker ('/' :: '/' :: g0 :: i0 :: t0 :: h0 :: u0 :: b0 ::
      d0 :: c0 :: o0 :: m0 :: sep :: T) = none :=
    matchMarker_none (by simp [show ciEq '/' 'g' = false from by decide])
  have s7 : matchMarker ('/' :: g0 :: i0 :: t0 :: h0 :: u0 :: b0 :: d0 :: c0 ::
      o0 :: m0 :: sep :: T) = none :=
    matchMarker_none (by simp [show ciEq '/' 'g' = false from by decide])
  have s8 : matchMarker (g0 :: i0 :: t0 :: h0 :: u0 :: b0 :: d0 :: c0 :: o0 ::
      m0 :: sep :: T) = some T :=
    matchMarker_some (by
      simp [hg0, hi0, ht0, hh0, hu0, hb0, hd0, hc0, ho0, hm0, hsep])
  rw [findRepoId_skip s0, findRepoId_skip s1, findRepoId_skip s2,
      findRepoId_skip s3, findRepoId_skip s4, findRepoId_skip s5,
      findRepoId_skip s6, findRepoId_skip s7, findRepoId_hit s8 hT]

/-- C2: for a git repository whose upstream remote fetch URL is
`git@github.com:OWNER/REPO.git` or `https://github.com/OWNER/REPO` (owner and
repo segments non-empty, slash-free, printable, and the combined segment not
itself ending in a case-insensitive `.git` for the bare form), resolution
returns owner, repo, and `repoId = OWNER/REPO` with the trailing `.git`
stripped. -/
theorem resolveGithubProject_standard_urls (env : GitEnv)
    (cb rb url O R : Str)
    (hcb : env.currentBranch = some cb)
    (hub : env.upstreamOf (trim cb) = some rb)
    (hru : env.remoteUrl ((splitSlash (trim rb)).headD []) = some url)
    (hO : O ≠ []) (hR : R ≠ [])
    (hOs : '/' ∉ O) (hRs : '/' ∉ R)
    (hOd : O.all dotMatch = true) (hRd : R.all dotMatch = true)
    (hng : endsWithGitCi (O ++ '/' :: R) = false)
    (hform : trim url =
        "git@github.com:".data ++ ((O ++ '/' :: R) ++ ".git".data) ∨
      trim url = "https://github.com/".data ++ (O ++ '/' :: R)) :
    resolveGithubProject env = .ok ⟨O, R, O ++ '/' :: R⟩ := by
  have hall : (O ++ '/' :: R).all dotMatch = true := by
    simp [List.all_append, List.all_cons, hOd, hRd, dotMatch]
  have hne2 : O ++ '/' :: R ≠ [] := by simp
  have hfind : findRepoId (trim url) = some (O ++ '/' :: R) := by
    rcases hform with h | h
    · rw [h]
      exact findRepoId_gitAtForm _ _ (matchTail_gitSuffix _ hne2 hall)
    · rw [h]
      exact findRepoId_httpsForm _ _ (matchTail_noGit _ hne2 hall hng)
  have hsplit : splitSlash (O ++ '/' :: R) = [O, R] := splitSlash_two O R hOs hRs
  simp only [List.headD_eq_head?] at hru
  simp [resolveGithubProject, resolveInner, hcb, hub, hru, hfind, hsplit, hO, hR]

theorem resolveGithubProject_standard_urls_witness :
    resolveGithubProject ⟨some "main".data,
        fun _ => some "origin/main".data,
        fun _ => some "git@github.com:foo/bar.git".data⟩ =
      .ok ⟨"foo".data, "bar".data, "foo/bar".data⟩ :=
  resolveGithubProject_standard_urls _ "main".data "origin/main".data
    "git@github.com:foo/bar.git".data "foo".data "bar".data rfl rfl rfl
    (by decide) (by decide) (by decide) (by decide) (by decide) (by decide)
    (by decide) (Or.inl (by decide))

/-- C10: the marker comparison is case-insensitive and its dots are
unescaped wildcards, and the match may start after an arbitrary scheme
part: any URL of the form `https://` + (any casing of `github`) + (any
non-line-terminator character) + (any casing of `com`) + (`:` or `/`) +
`OWNER/REPO` resolves successfully to that owner and repo, rather than
failing as a non-GitHub remote. -/
theorem resolveGithubProject_loose_marker (env : GitEnv)
    (cb rb url : Str) (g0 i0 t0 h0 u0 b0 d0 c0 o0 m0 sep : Char) (O R : Str)
    (hcb : env.currentBranch = some cb)
    (hub : env.upstreamOf (trim cb) = some rb)
    (hru : env.remoteUrl ((splitSlash (trim rb)).headD []) = some url)
    (hg0 : ciEq g0 'g' = true) (hi0 : ciEq i0 'i' = true)
    (ht0 : ciEq t0 't' = true) (hh0 : ciEq h0 'h' = true)
    (hu0 : ciEq u0 'u' = true) (hb0 : ciEq b0 'b' = true)
    (hd0 : dotMatch d0 = true) (hc0 : ciEq c0 'c' = true)
    (ho0 : ciEq o0 'o' = true) (hm0 : ciEq m0 'm' = true)
    (hsep : sep = ':' ∨ sep = '/')
    (hO : O ≠ []) (hR : R ≠ [])
    (hOs : '/' ∉ O) (hRs : '/' ∉ R)
    (hOd : O.all dotMatch = true) (hRd : R.all dotMatch = true)
    (hng : endsWithGitCi (O ++ '/' :: R) = false)
    (hform : trim url = "https://".data ++ g0 :: i0 :: t0 :: h0 :: u0 :: b0 ::
        d0 :: c0 :: o0 :: m0 :: sep :: (O ++ '/' :: R)) :
    resolveGithubProject env = .ok ⟨O, R, O ++ '/' :: R⟩ := by
  have hall : (O ++ '/' :: R).all dotMatch = true := by
    simp [List.all_append, List.all_cons, hOd, hRd, dotMatch]
  have hne2 : O ++ '/' :: R ≠ [] := by simp
  have hsepb : (sep == ':' || sep == '/') = true := by
    rcases hsep with h | h <;> simp [h]
  have hfind : findRepoId (trim url) = some (O ++ '/' :: R) := by
    rw [hform, show "https://".data = ['h', 't', 't', 'p', 's', ':', '/', '/']
      from rfl]
    simp only [List.cons_append, List.nil_append]
    exact findRepoId_looseHttps g0 i0 t0 h0 u0 b0 d0 c0 o0 m0 sep _ _
      hg0 hi0 ht0 hh0 hu0 hb0 hd0 hc0 ho0 hm0 hsepb
      (matchTail_noGit _ hne2 hall hng)
  have hsplit : splitSlash (O ++ '/' :: R) = [O, R] := splitSlash_two O R hOs hRs
  simp only [List.headD_eq_head?] at hru
  simp [resolveGithubProject, resolveInner, hcb, hub, hru, hfind, hsplit, hO, hR]

theorem resolveGithubProject_loose_marker_witness :
    resolveGithubProject ⟨some "main".data,
        fun _ => some "origin/main".data,
        fun _ => some "https://GitHub.com/OWNER/REPO".data⟩ =
      .ok ⟨"OWNER".data, "REPO".data, "OWNER/REPO".data⟩ :=
  resolveGithubProject_loose_marker _ "main".data "origin/main".data
    "https://GitHub.com/OWNER/REPO".data 'G' 'i' 't' 'H' 'u' 'b' '.' 'c' 'o'
    'm' '/' "OWNER".data "REPO".data rfl rfl rfl
    (by decide) (by decide) (by decide) (by decide) (by decide) (by decide)
    (by decide) (by decide) (by decide) (by decide) (Or.inr rfl)
    (by decide) (by decide) (by decide) (by decide) (by decide) (by decide)
    (by decide) (by decide)

/-- C3: `dispatchEvent` on the reference target `owner a`, `repo b` with
event type `go` issues exactly one remote dispatch call carrying owner `a`,
repo `b`, `event_type go`, and the returned message contains `a/b` and `go`;
a `RepositoryRef` target without a `repoId` behaves exactly as one whose
`repoId` is `owner/repo`; a textual target is resolved through
`resolveGithubProject` on its directory, a resolution error propagating
unchanged. -/
theorem dispatchEvent_spec (env : GitEnv) (api : Str → Except Str Unit)
    (dapi : Octokit → DispatchCall → Except Str Unit)
    (script : List PromptAttempt) (rc : NetRC) (c : Octokit)
    (hok : dapi c ⟨"a".data, "b".data, "go".data⟩ = .ok ()) :
    (dispatchEvent env api dapi script rc (some c)
        (.ref "a".data "b".data none) "go".data =
      (.ok "(a/b) go event dispatched.".data,
       [⟨"a".data, "b".data, "go".data⟩])
     ∧ "a/b".data <:+: "(a/b) go event dispatched.".data
     ∧ "go".data <:+: "(a/b) go event dispatched.".data)
    ∧ (∀ (github : Option Octokit) (o r et : Str),
        dispatchEvent env api dapi script rc github (.ref o r none) et =
        dispatchEvent env api dapi script rc github
          (.ref o r (some (o ++ '/' :: r))) et)
    ∧ (∀ (github : Option Octokit) (dir et : Str),
        (∀ d, resolveGithubProject env = .ok d →
          dispatchEvent env api dapi script rc github (.path dir) et =
          dispatchEvent env api dapi script rc github
            (.ref d.owner d.repo (some d.repoId)) et)
        ∧ (∀ e, resolveGithubProject env = .error e →
          dispatchEvent env api dapi script rc github (.path dir) et =
            (.thrown e, []))) := by
  refine ⟨⟨?_, by decide, by decide⟩, ?_, ?_⟩
  · simp [dispatchEvent, getGithubAPI, hok]
  · intro github o r et
    rfl
  · intro github dir et
    constructor
    · intro d hd
      simp [dispatchEvent, hd]
    · intro e he
      simp [dispatchEvent, he]

theorem dispatchEvent_spec_witness :
    dispatchEvent ⟨none, fun _ => none, fun _ => none⟩ (fun _ => .ok ())
      (fun _ _ => .ok ()) [] (fun _ => none) (some ⟨"token x".data⟩)
      (.ref "a".data "b".data none) "go".data =
      (.ok "(a/b) go event dispatched.".data,
       [⟨"a".data, "b".data, "go".data⟩]) :=
  ((dispatchEvent_spec ⟨none, fun _ => none, fun _ => none⟩ (fun _ => .ok ())
      (fun _ _ => .ok ()) [] (fun _ => none) ⟨"token x".data⟩ rfl).1).1
